import Mathlib

/-!
# Verification of the parallel stream-processing engine of benchmark-rio-s3

Shallow embedding of `src/benchmark_rio_s3/parallel.py`.

The module has three pieces:

* `split_it` (lines 11-52): a bounded relay turning one source stream into
  `n` consumer sequences through one shared FIFO queue.  The sentinel
  `EOS_MARKER` is a unique object compared by identity; we embed items as
  `Option α`, with `none` standing for `EOS_MARKER` (no genuine item can be
  `none` by type, matching the identity check `item is EOS_MARKER`).
  The producer loop `run_src_pump` and the consumer generator `q2it` are
  concurrent loops; we embed one loop iteration as one atomic step of a
  state machine, and an execution as a list of scheduler actions.
* `ParallelStreamProc._run` / `abort` (lines 84-122): job lifecycle.
  Embedded as a pure function of the validation inputs, the settled outcome
  of the producer loop, and the settled outcomes of the worker futures.
* `ParallelStreamProc.broadcast` (lines 138-144): embedded as a pure
  function of the per-slot invocation outcomes plus the iteration order of
  the `concurrent.futures.wait(...).done` set (a Python `set`, whose
  iteration order is unspecified: we quantify over permutations).
-/

set_option autoImplicit false

namespace BenchmarkRioS3

/-! ## The bounded relay: `split_it` (parallel.py lines 11-52) -/

/-- The per-consumer view of one `q2it` generator: the items it has yielded
so far (in order), how many `EOS_MARKER`s it has observed, and whether the
generator has returned. -/
structure Consumer (α : Type) where
  yielded : List α
  eos : Nat
  done : Bool
deriving Repr, DecidableEq

/-- The shared state of one `split_it` relay: `pending` is the part of
`itertools.chain(src, itertools.repeat(EOS_MARKER, n))` the producer has not
yet submitted, `queue` the FIFO contents of the shared `queue.Queue`,
`qmax` its `maxsize`, `abort` the `state.abort` flag, `producerDone`
whether `run_src_pump` has returned, and `consumers` the `n` `q2it`
generators. -/
structure RelayState (α : Type) where
  pending : List (Option α)
  queue : List (Option α)
  qmax : Nat
  abort : Bool
  producerDone : Bool
  consumers : List (Consumer α)
deriving Repr, DecidableEq

/-- Python `queue.Queue(maxsize=qmaxsize)` accepts a `put` when the queue is not
full; Python treats `maxsize <= 0` as unbounded capacity. -/
def canPut {α : Type} (s : RelayState α) : Bool :=
  s.qmax == 0 || s.queue.length < s.qmax

/-- One iteration of the producer loop `run_src_pump` (lines 26-43): if the
abort flag is set, `submit_with_retry` returns `False` and the loop returns
without submitting (line 41); otherwise the next element of the chained
stream is enqueued when the queue has room, and on `queue.Full` nothing
changes (the optional `on_blocked` hook has no effect on this state). -/
def run_src_pump_step {α : Type} (s : RelayState α) : RelayState α :=
  if s.producerDone then s
  else if s.abort then { s with producerDone := true }
  else
    match s.pending with
    | [] => { s with producerDone := true }
    | x :: rest =>
        if canPut s then { s with queue := s.queue ++ [x], pending := rest }
        else s

/-- One iteration of the consumer generator `q2it` (lines 12-24) for the
consumer of index `i`: the loop condition `while state.abort is False`
is checked first, and an abort ends the generator; a `get` on an empty
queue raises `queue.Empty` after the timeout, changing nothing; receiving
`EOS_MARKER` ends the generator without yielding it; any other item is
yielded. -/
def q2it_step {α : Type} (s : RelayState α) (i : Nat) : RelayState α :=
  match s.consumers[i]? with
  | Option.none => s
  | Option.some c =>
      if c.done then s
      else if s.abort then
        { s with consumers := s.consumers.set i { c with done := true } }
      else
        match s.queue with
        | [] => s
        | Option.none :: rest =>
            { s with queue := rest,
                     consumers := s.consumers.set i
                       { c with eos := c.eos + 1, done := true } }
        | Option.some a :: rest =>
            { s with queue := rest,
                     consumers := s.consumers.set i
                       { c with yielded := c.yielded ++ [a] } }

/-- A scheduler action: run one producer-loop iteration, one iteration of
consumer `i`, or set the abort flag (`state.abort = True`). -/
inductive Action where
  | produce : Action
  | consume : Nat → Action
  | setAbort : Action
deriving Repr, DecidableEq

/-- Apply one scheduler action. -/
def step {α : Type} (s : RelayState α) : Action → RelayState α
  | Action.produce => run_src_pump_step s
  | Action.consume i => q2it_step s i
  | Action.setAbort => { s with abort := true }

/-- Run a whole schedule. -/
def runSchedule {α : Type} (s : RelayState α) (as : List Action) : RelayState α :=
  as.foldl step s

/-- The constructor `split_it(src, n, qmaxsize)` (lines 11-52): builds the shared queue,
the coordination state with a cleared abort flag, and `n` fresh `q2it`
consumers; the producer will pump `src` followed by `n` `EOS_MARKER`s
(line 38). -/
def split_it {α : Type} (src : List α) (n : Nat) (qmaxsize : Nat) : RelayState α :=
  { pending := src.map Option.some ++ List.replicate n Option.none
    queue := []
    qmax := qmaxsize
    abort := false
    producerDone := false
    consumers := List.replicate n { yielded := [], eos := 0, done := false } }

/-! ## Job lifecycle: `ParallelStreamProc._run` and `abort` (lines 84-122) -/

/-- A Python exception escaping `_run`: either one of its own
`ValueError`s, or an exception raised by user code (the source stream or
the `on_blocked` hook) inside the producer loop. -/
inductive PyError (ε : Type) where
  | valueError : String → PyError ε
  | raised : ε → PyError ε
deriving Repr, DecidableEq

/-- What one call of `ParallelStreamProc._run` leaves behind: the value
returned or exception raised, whether `self._state` is still set after the
call, and how many worker tasks were submitted to the pool. -/
structure RunResult (ε : Type) where
  result : Except (PyError ε) Unit
  stateActiveAfter : Bool
  dispatched : Nat
deriving Repr

/-- Lines 103-117: the part of `_run` after `max_workers` resolution; `mw`
is the resolved worker count, so `zip(self._workers[:mw], its)` submits
`mw` futures.  `fut.wait` waits for every future, exceptional or not, so
the assertion on line 115 always passes, and the `workers` outcomes are
never inspected; `self._state = None` runs only when `state.run` returned
normally. -/
def ParallelStreamProc.run_dispatch {ε : Type} (active : Bool)
    (mw : Nat) (producer : Except ε Unit)
    (workers : List (Except ε Unit)) : RunResult ε :=
  if active then
    { result := Except.error (PyError.valueError "Can not run concurrent jobs")
      stateActiveAfter := true
      dispatched := 0 }
  else
    match producer with
    | Except.error e =>
        { result := Except.error (PyError.raised e)
          stateActiveAfter := true
          dispatched := mw }
    | Except.ok _ =>
        { result := Except.ok ()
          stateActiveAfter := false
          dispatched := mw }

/-- The method `ParallelStreamProc._run` (lines 84-117), as a function of:
`nthreads` (pool size), `active` (whether `self._state` was already set),
the `max_workers` argument, the settled outcome of the producer loop
`state.run(...)` (an error when the source stream raises while being
pumped), and the settled outcomes of the dispatched worker futures.

Faithful control flow: `max_workers` is resolved and validated first
(lines 90-95); the concurrent-job check on `self._state` follows
(lines 103-104); only then are the relay built, `self._state` set, the
`max_workers` futures submitted and the producer driven (lines 106-112);
see `ParallelStreamProc.run_dispatch` for the rest. -/
def ParallelStreamProc.run_model {ε : Type} (nthreads : Nat) (active : Bool)
    (max_workers : Option Nat) (producer : Except ε Unit)
    (workers : List (Except ε Unit)) : RunResult ε :=
  match max_workers with
  | Option.none =>
      ParallelStreamProc.run_dispatch active nthreads producer workers
  | Option.some w =>
      if w > nthreads then
        { result := Except.error (PyError.valueError
            "Only have \x7b\x7d worker threads, but asked for \x7b\x7d")
          stateActiveAfter := active
          dispatched := 0 }
      else if w < 1 then
        { result := Except.error (PyError.valueError
            "max_workers can not be less than 1")
          stateActiveAfter := active
          dispatched := 0 }
      else
        ParallelStreamProc.run_dispatch active w producer workers

/-- The method `ParallelStreamProc.abort` (lines 119-122): read `self._state`; a
`SimpleNamespace` is always truthy, so `if state:` tests only that a run
state exists; when it does, set its abort flag. -/
def ParallelStreamProc.abort_model {α : Type} (state : Option (RelayState α)) :
    Option (RelayState α) :=
  match state with
  | Option.none => Option.none
  | Option.some s => Option.some { s with abort := true }

/-! ## `ParallelStreamProc.broadcast` (lines 138-144) -/

/-- The argument tuple Python builds for `worker.submit(proc, *args, *kwargs)`
on line 139: the call `proc` will receive.  `positional` lists the
positional arguments in order; `keyword` lists the keyword arguments. -/
structure CallArgs (π : Type) (κ : Type) where
  positional : List π
  keyword : List (String × κ)
deriving Repr, DecidableEq

/-- Iterating a Python `dict` yields its keys, in insertion order. -/
def pyDictIter {κ : Type} (d : List (String × κ)) : List String :=
  d.map Prod.fst

/-- The call each worker receives from line 139,
`worker.submit(proc, *args, *kwargs)`: `*args` splices the positional
arguments, and `*kwargs` — star, not double-star — iterates the dict and
splices its KEYS as further positional arguments; nothing is passed by
keyword and the dict's values are dropped. -/
def broadcast_submit_call {π κ : Type} (args : List π)
    (kwargs : List (String × κ)) : CallArgs (π ⊕ String) κ :=
  { positional := args.map Sum.inl ++ (pyDictIter kwargs).map Sum.inr
    keyword := [] }

/-- The comprehension `[f.result() for f in rr.done]` (line 144): read the futures in the
order the set iteration presents them; the first `result()` call on a
future holding an exception re-raises it, aborting the comprehension. -/
def collectResults {ε ρ : Type} : List (Except ε ρ) → Except ε (List ρ)
  | [] => Except.ok []
  | Except.error e :: _ => Except.error e
  | Except.ok r :: rest =>
      match collectResults rest with
      | Except.error e => Except.error e
      | Except.ok rs => Except.ok (r :: rs)

/-- The method `ParallelStreamProc.broadcast` (lines 138-144), given the settled
outcome of each slot's invocation (`outcomes[i]` is what `proc` returned or
raised on worker slot `i`; line 139 submits exactly one invocation per
slot, so there is exactly one outcome per slot) and `order`, the iteration
order of the set `rr.done` returned by `fut.wait` — `fut.wait` waits for
all futures, so `rr.done` holds every future, in unspecified order: a
permutation of the slot indices. -/
def ParallelStreamProc.broadcast_model {ε ρ : Type}
    (outcomes : List (Except ε ρ)) (order : List Nat) : Except ε (List ρ) :=
  collectResults (order.filterMap (fun i => outcomes[i]?))

/-- The futures list of line 139 pairs worker slots with invocations
one-to-one: slot `i` runs invocation `i`. -/
def ParallelStreamProc.broadcast_futures {σ ε ρ : Type} (workers : List σ)
    (proc : σ → Except ε ρ) : List (Except ε ρ) :=
  workers.map proc


/-! ## Helper lemmas -/

/-- The multiset of genuine items in a segment of the relay stream. -/
def listSomes {α : Type} (l : List (Option α)) : Multiset α :=
  (l.filterMap id : List α)

/-- The number of `EOS_MARKER`s in a segment of the relay stream. -/
def nonesCount {α : Type} (l : List (Option α)) : Nat :=
  l.countP (fun x => x.isNone)

/-- The values of the successful outcomes, in slot order. -/
def okValues {ε ρ : Type} : List (Except ε ρ) → List ρ :=
  List.filterMap (fun o => match o with
    | Except.ok r => Option.some r
    | Except.error _ => Option.none)

/-- Accounting of one `q2it` generator over a whole job, for the
`Queue.task_done`/`Queue.join` protocol: every `q.put` (line 30)
increments the queue's unfinished-task count and every `q.task_done`
decrements it; `q.join()` (line 43) returns only when it reaches zero.
`q2it` calls `task_done` for the `EOS_MARKER` right before returning
(line 18) but for a genuine item only after being resumed from
`yield item` (line 22).  `pulled` counts the genuine items this consumer
got and yielded.  `finished = true` means the worker's `stream_proc` ran
the generator to its end: the generator also consumed one `EOS_MARKER`
and every `task_done` was executed.  `finished = false` means
`stream_proc` raised and the generator was abandoned: it never consumed
an `EOS_MARKER`, and if the raise happened while an item was being
processed — between the `yield` on line 21 and the resume into line 22
(`midItem = true`) — that item's `task_done` was never executed. -/
structure ConsumerAccount where
  pulled : Nat
  finished : Bool
  midItem : Bool
deriving Repr, DecidableEq

/-- Queue entries this consumer removed: its items, plus one `EOS_MARKER`
when the generator ran to its end. -/
def ConsumerAccount.gets (a : ConsumerAccount) : Nat :=
  if a.finished then a.pulled + 1 else a.pulled

/-- Number of `q.task_done()` calls this consumer executed (lines 18, 22):
all pulled items plus the EOS when finished; when abandoned mid-item, the
in-flight item's `task_done` is missing. -/
def ConsumerAccount.taskDones (a : ConsumerAccount) : Nat :=
  if a.finished then a.pulled + 1
  else if a.midItem then a.pulled - 1
  else a.pulled

/-- Whether `q.join()` (line 43) can return: it does exactly when the
number of `task_done` calls has matched the number of `put`s. -/
def q_join_returns (puts taskDones : Nat) : Bool :=
  taskDones == puts

/-- Invariant of an abort-free relay execution started by `split_it src n _`:
the unconsumed part of the stream (`queue ++ pending`) is a suffix of the
chained stream `src.map some ++ replicate n none`; there are `n` consumers;
a consumer is done exactly when it has seen one `EOS_MARKER`; no item is
lost or duplicated (mass conservation); and each consumed `EOS_MARKER`
finished exactly one consumer (marker conservation). -/
structure RelayInv {α : Type} (src : List α) (n : Nat) (s : RelayState α) : Prop where
  abortFalse : s.abort = false
  suffixInv : (s.queue ++ s.pending) <:+ (src.map Option.some ++ List.replicate n Option.none)
  lengthInv : s.consumers.length = n
  flagsInv : ∀ c ∈ s.consumers, (c.done = true ∧ c.eos = 1) ∨ (c.done = false ∧ c.eos = 0)
  massInv : (s.consumers.map fun c => (c.yielded : Multiset α)).sum
      + listSomes (s.queue ++ s.pending) = (src : Multiset α)
  countInv : s.consumers.countP (fun c => c.done)
      + nonesCount (s.queue ++ s.pending) = n

/-! ## Lemmas -/

theorem sum_set_add {M : Type} [AddCommMonoid M] (l : List M) (i : Nat) (x y : M)
    (h : l[i]? = some y) : (l.set i x).sum + y = l.sum + x := by
  induction l generalizing i with
  | nil => simp at h
  | cons z t ih =>
    cases i with
    | zero =>
      simp only [List.getElem?_cons_zero, Option.some.injEq] at h
      subst h
      simp only [List.set, List.sum_cons]
      abel
    | succ j =>
      simp only [List.getElem?_cons_succ] at h
      simp only [List.set, List.sum_cons]
      have h3 := ih j h
      calc z + (t.set j x).sum + y = z + ((t.set j x).sum + y) := by abel
      _ = z + (t.sum + x) := by rw [h3]
      _ = z + t.sum + x := by abel

theorem countP_set_add {β : Type} (p : β → Bool) (l : List β) (i : Nat) (x c : β)
    (h : l[i]? = some c) :
    (l.set i x).countP p + (if p c then 1 else 0)
      = l.countP p + (if p x then 1 else 0) := by
  induction l generalizing i with
  | nil => simp at h
  | cons z t ih =>
    cases i with
    | zero =>
      simp only [List.getElem?_cons_zero, Option.some.injEq] at h
      subst h
      simp only [List.set, List.countP_cons]
      omega
    | succ j =>
      simp only [List.getElem?_cons_succ] at h
      simp only [List.set, List.countP_cons]
      have h3 := ih j h
      omega

theorem set_self_of_getElem? {β : Type} (l : List β) (i : Nat) (a : β)
    (h : l[i]? = some a) : l.set i a = l := by
  induction l generalizing i with
  | nil => rfl
  | cons z t ih =>
    cases i with
    | zero =>
      simp only [List.getElem?_cons_zero, Option.some.injEq] at h
      subst h
      rfl
    | succ j =>
      simp only [List.getElem?_cons_succ] at h
      simp [List.set, ih j h]

theorem filterMap_getElem_range {β : Type} (l : List β) :
    List.filterMap (fun i => l[i]?) (List.range l.length) = l := by
  induction l with
  | nil => rfl
  | cons x t ih =>
    rw [List.length_cons, List.range_succ_eq_map, List.filterMap_cons, List.filterMap_map]
    simp only [List.getElem?_cons_zero]
    congr 1
    have h2 : ((fun i => (x :: t)[i]?) ∘ Nat.succ) = fun i => t[i]? := by
      funext i
      simp
    rw [h2]
    exact ih

/-! ## The relay invariant -/

theorem relayInv_init {α : Type} (src : List α) (n qmax : Nat) :
    RelayInv src n (split_it src n qmax) := by
  constructor
  · rfl
  · simp [split_it]
  · simp [split_it]
  · intro c hc
    simp [split_it] at hc
    rcases hc with ⟨-, rfl⟩
    simp
  · simp [split_it, listSomes, List.filterMap_append, List.filterMap_map]
  · simp [split_it, nonesCount, List.countP_append, List.countP_replicate]


theorem relayInv_produce {α : Type} {src : List α} {n : Nat} {s : RelayState α}
    (h : RelayInv src n s) : RelayInv src n (run_src_pump_step s) := by
  obtain ⟨pend, qu, qm, ab, pd, cs⟩ := s
  obtain ⟨hab, hsuf, hlen, hflag, hmass, hcount⟩ := h
  simp only at hab hsuf hlen hflag hmass hcount
  subst hab
  unfold run_src_pump_step
  cases pd with
  | true => exact ⟨rfl, hsuf, hlen, hflag, hmass, hcount⟩
  | false =>
    simp only [Bool.false_eq_true, if_false]
    cases pend with
    | nil => exact ⟨rfl, hsuf, hlen, hflag, hmass, hcount⟩
    | cons x rest =>
      by_cases hcp : canPut ⟨x :: rest, qu, qm, false, false, cs⟩ = true
      · simp only [hcp, if_true]
        have key : (qu ++ [x]) ++ rest = qu ++ (x :: rest) := by simp
        refine ⟨rfl, ?_, hlen, hflag, ?_, ?_⟩
        · show ((qu ++ [x]) ++ rest) <:+ _
          rw [key]
          exact hsuf
        · show _ + listSomes ((qu ++ [x]) ++ rest) = _
          rw [key]
          exact hmass
        · show _ + nonesCount ((qu ++ [x]) ++ rest) = _
          rw [key]
          exact hcount
      · simp only [hcp, if_false]
        exact ⟨rfl, hsuf, hlen, hflag, hmass, hcount⟩

theorem relayInv_consume {α : Type} {src : List α} {n : Nat} {s : RelayState α} (i : Nat)
    (h : RelayInv src n s) : RelayInv src n (q2it_step s i) := by
  obtain ⟨pend, qu, qm, ab, pd, cs⟩ := s
  obtain ⟨hab, hsuf, hlen, hflag, hmass, hcount⟩ := h
  simp only at hab hsuf hlen hflag hmass hcount
  subst hab
  unfold q2it_step
  cases hc : cs[i]? with
  | none => exact ⟨rfl, hsuf, hlen, hflag, hmass, hcount⟩
  | some c =>
    simp only
    obtain ⟨cy, ce, cd⟩ := c
    cases cd with
    | true => exact ⟨rfl, hsuf, hlen, hflag, hmass, hcount⟩
    | false =>
      simp only [Bool.false_eq_true, if_false]
      have hmem : (⟨cy, ce, false⟩ : Consumer α) ∈ cs := List.getElem?_mem hc
      have hce : ce = 0 := by
        rcases hflag _ hmem with ⟨hd, -⟩ | ⟨-, he⟩
        · exact absurd hd (by simp)
        · exact he
      cases qu with
      | nil => exact ⟨rfl, hsuf, hlen, hflag, hmass, hcount⟩
      | cons x rest =>
        rw [List.cons_append] at hsuf hmass hcount
        cases x with
        | none =>
          refine ⟨rfl, ?_, ?_, ?_, ?_, ?_⟩
          · exact (List.suffix_cons _ _).trans hsuf
          · show (cs.set i _).length = n
            rw [List.length_set]
            exact hlen
          · intro c2 hc2
            rcases List.mem_or_eq_of_mem_set hc2 with hm | rfl
            · exact hflag _ hm
            · left
              exact ⟨rfl, by simp [hce]⟩
          · show ((cs.set i ⟨cy, ce + 1, true⟩).map fun c => (c.yielded : Multiset α)).sum
                + listSomes (rest ++ pend) = _
            have hmap : (cs.set i ⟨cy, ce + 1, true⟩).map (fun c => (c.yielded : Multiset α))
                = cs.map (fun c => (c.yielded : Multiset α)) := by
              rw [List.map_set]
              apply set_self_of_getElem?
              rw [List.getElem?_map, hc]
              rfl
            rw [hmap]
            have hls : listSomes (Option.none :: (rest ++ pend)) = listSomes (rest ++ pend) := by
              simp [listSomes, List.filterMap_cons]
            rw [← hls]
            exact hmass
          · show (cs.set i ⟨cy, ce + 1, true⟩).countP (fun c => c.done)
                + nonesCount (rest ++ pend) = n
            have hset : (cs.set i ⟨cy, ce + 1, true⟩).countP (fun c => c.done)
                = cs.countP (fun c => c.done) + 1 := by
              have h5 := countP_set_add (fun c => c.done) cs i
                ⟨cy, ce + 1, true⟩ ⟨cy, ce, false⟩ hc
              simpa using h5
            have hn2 : nonesCount (Option.none :: (rest ++ pend))
                = nonesCount (rest ++ pend) + 1 := by
              simp [nonesCount, List.countP_cons]
            rw [hn2] at hcount
            rw [hset]
            omega
        | some a =>
          refine ⟨rfl, ?_, ?_, ?_, ?_, ?_⟩
          · exact (List.suffix_cons _ _).trans hsuf
          · show (cs.set i _).length = n
            rw [List.length_set]
            exact hlen
          · intro c2 hc2
            rcases List.mem_or_eq_of_mem_set hc2 with hm | rfl
            · exact hflag _ hm
            · right
              exact ⟨rfl, hce⟩
          · show ((cs.set i ⟨cy ++ [a], ce, false⟩).map fun c => (c.yielded : Multiset α)).sum
                + listSomes (rest ++ pend) = _
            rw [List.map_set]
            have hgm : (cs.map (fun c => (c.yielded : Multiset α)))[i]? = some ↑cy := by
              rw [List.getElem?_map, hc]
              rfl
            have hsum := sum_set_add (cs.map (fun c => (c.yielded : Multiset α))) i
              (↑(cy ++ [a])) (↑cy) hgm
            have hca : ((cy ++ [a] : List α) : Multiset α) = ↑cy + {a} := rfl
            have hls : listSomes (Option.some a :: (rest ++ pend))
                = a ::ₘ listSomes (rest ++ pend) := by
              simp [listSomes, List.filterMap_cons]
            rw [hls] at hmass
            apply add_right_cancel (b := (↑cy : Multiset α))
            calc ((cs.map fun c => (c.yielded : Multiset α)).set i ↑(cy ++ [a])).sum
                  + listSomes (rest ++ pend) + ↑cy
                = ((cs.map fun c => (c.yielded : Multiset α)).set i ↑(cy ++ [a])).sum
                  + ↑cy + listSomes (rest ++ pend) := by abel
            _ = (cs.map fun c => (c.yielded : Multiset α)).sum + ↑(cy ++ [a])
                  + listSomes (rest ++ pend) := by rw [hsum]
            _ = (cs.map fun c => (c.yielded : Multiset α)).sum + (↑cy + {a})
                  + listSomes (rest ++ pend) := by rw [hca]
            _ = (cs.map fun c => (c.yielded : Multiset α)).sum
                  + (a ::ₘ listSomes (rest ++ pend)) + ↑cy := by
                  rw [← Multiset.singleton_add]
                  abel
            _ = ↑src + ↑cy := by rw [hmass]
          · show (cs.set i ⟨cy ++ [a], ce, false⟩).countP (fun c => c.done)
                + nonesCount (rest ++ pend) = n
            have hset : (cs.set i ⟨cy ++ [a], ce, false⟩).countP (fun c => c.done)
                = cs.countP (fun c => c.done) := by
              have h5 := countP_set_add (fun c => c.done) cs i
                ⟨cy ++ [a], ce, false⟩ ⟨cy, ce, false⟩ hc
              simpa using h5
            have hn2 : nonesCount (Option.some a :: (rest ++ pend))
                = nonesCount (rest ++ pend) := by
              simp [nonesCount, List.countP_cons]
            rw [hn2] at hcount
            rw [hset]
            exact hcount

theorem relayInv_step {α : Type} {src : List α} {n : Nat} {s : RelayState α} {a : Action}
    (ha : a ≠ Action.setAbort) (h : RelayInv src n s) : RelayInv src n (step s a) := by
  cases a with
  | produce => exact relayInv_produce h
  | consume i => exact relayInv_consume i h
  | setAbort => exact absurd rfl ha

theorem relayInv_run {α : Type} {src : List α} {n : Nat} (as : List Action) {s : RelayState α}
    (hab : Action.setAbort ∉ as) (h : RelayInv src n s) :
    RelayInv src n (runSchedule s as) := by
  induction as generalizing s with
  | nil => exact h
  | cons a rest ih =>
    have ha : a ≠ Action.setAbort := fun he => hab (he ▸ List.mem_cons_self a rest)
    have hrest : Action.setAbort ∉ rest := fun hm => hab (List.mem_cons_of_mem a hm)
    exact ih hrest (relayInv_step ha h)

theorem relayInv_final {α : Type} {src : List α} {n : Nat} {s : RelayState α}
    (hn : 1 ≤ n) (h : RelayInv src n s)
    (hdone : ∀ c ∈ s.consumers, c.done = true) :
    (s.consumers.map fun c => (c.yielded : Multiset α)).sum = (src : Multiset α)
    ∧ ∀ c ∈ s.consumers, c.eos = 1 := by
  have hcnt : s.consumers.countP (fun c => c.done) = n := by
    rw [List.countP_eq_length.mpr hdone]
    exact h.lengthInv
  have hzero : nonesCount (s.queue ++ s.pending) = 0 := by
    have h6 := h.countInv
    omega
  have hemp : s.queue ++ s.pending = [] := by
    by_contra hne
    obtain ⟨w, hw⟩ := h.suffixInv
    have hL2 : ∀ L : List (Option α), L ≠ [] → w ++ L = src.map Option.some
        ++ List.replicate n Option.none → L.getLast? = some Option.none := by
      intro L hLne hwL
      have hbig : (w ++ L).getLast?
          = (src.map Option.some ++ List.replicate n (Option.none : Option α)).getLast? := by
        rw [hwL]
      rw [List.getLast?_append, List.getLast?_append, List.getLast?_replicate] at hbig
      have hn0 : ¬(n = 0) := by omega
      simp only [hn0, if_false] at hbig
      cases hq : L.getLast? with
      | none => exact absurd (List.getLast?_eq_none_iff.mp hq) hLne
      | some v =>
        rw [hq] at hbig
        exact hbig
    have hmemL : (Option.none : Option α) ∈ s.queue ++ s.pending := by
      have hx : (Option.none : Option α) ∈ (s.queue ++ s.pending).getLast? :=
        hL2 (s.queue ++ s.pending) hne hw
      obtain ⟨h7, h8⟩ := List.mem_getLast?_eq_getLast hx
      exact h8 ▸ List.getLast_mem h7
    have hpos : 0 < nonesCount (s.queue ++ s.pending) :=
      List.countP_pos_iff.mpr ⟨Option.none, hmemL, rfl⟩
    omega
  constructor
  · have h9 := h.massInv
    rw [hemp] at h9
    simpa [listSomes] using h9
  · intro c hc
    rcases h.flagsInv c hc with ⟨-, he⟩ | ⟨hd, -⟩
    · exact he
    · exact absurd (hdone c hc) (by simp [hd])

/-- C1: for every finite source stream and every partition count `n ≥ 1`,
any completed abort-free execution of the relay built by `split_it` (one in
which every consumer generator has returned) yields every one of the
source's items to exactly one of the `n` consumer sequences exactly once
(the multisets of yielded items add up to exactly the source), and each of
the `n` consumers observed exactly one `EOS_MARKER`, which terminated the
consumer and was not yielded (yielded lists contain only genuine items by
construction). -/
theorem c1_split_it_delivers_each_item_once {α : Type} (src : List α) (n qmax : Nat)
    (hn : 1 ≤ n) (as : List Action) (hnoabort : Action.setAbort ∉ as)
    (hdone : ∀ c ∈ (runSchedule (split_it src n qmax) as).consumers, c.done = true) :
    ((runSchedule (split_it src n qmax) as).consumers.map
        fun c => (c.yielded : Multiset α)).sum = (src : Multiset α)
    ∧ (runSchedule (split_it src n qmax) as).consumers.length = n
    ∧ ∀ c ∈ (runSchedule (split_it src n qmax) as).consumers,
        c.eos = 1 ∧ c.done = true := by
  have hinv := relayInv_run as hnoabort (relayInv_init src n qmax)
  obtain ⟨h1, h2⟩ := relayInv_final hn hinv hdone
  exact ⟨h1, hinv.lengthInv, fun c hc => ⟨h2 c hc, hdone c hc⟩⟩

/-- Witness for C1: a complete two-consumer run over source `[1, 2, 3]`
with queue capacity 2: the yielded multisets add up to exactly the source
and there are two consumer sequences. -/
theorem c1_split_it_delivers_each_item_once_witness :
    (1 ≤ 2)
    ∧ ((runSchedule (split_it [1, 2, 3] 2 2) [Action.produce, Action.produce,
        Action.consume 0, Action.produce, Action.consume 1, Action.produce,
        Action.consume 0, Action.produce, Action.consume 0,
        Action.consume 1]).consumers.map
          fun c => (c.yielded : Multiset Nat)).sum
        = (([1, 2, 3] : List Nat) : Multiset Nat)
    ∧ (runSchedule (split_it [1, 2, 3] 2 2) [Action.produce, Action.produce,
        Action.consume 0, Action.produce, Action.consume 1, Action.produce,
        Action.consume 0, Action.produce, Action.consume 0,
        Action.consume 1]).consumers.length = 2 :=
  ⟨by decide,
    (c1_split_it_delivers_each_item_once [1, 2, 3] 2 2 (by decide)
      [Action.produce, Action.produce, Action.consume 0, Action.produce,
        Action.consume 1, Action.produce, Action.consume 0, Action.produce,
        Action.consume 0, Action.consume 1] (by decide) (by decide)).1,
    (c1_split_it_delivers_each_item_once [1, 2, 3] 2 2 (by decide)
      [Action.produce, Action.produce, Action.consume 0, Action.produce,
        Action.consume 1, Action.produce, Action.consume 0, Action.produce,
        Action.consume 0, Action.consume 1] (by decide) (by decide)).2.1⟩

/-- C7: once the abort flag of the run state is set, a producer-loop
step enqueues nothing and returns (the producer is done), and a
consumer-loop step pulls nothing from the queue and yields nothing;
`abort()` is a no-op when no job is active, sets the active run state's
abort flag when one is, and is idempotent. -/
theorem c7_abort_is_cooperative_and_idempotent {α : Type} (s : RelayState α)
    (hab : s.abort = true) (i : Nat) :
    ((run_src_pump_step s).queue = s.queue
      ∧ (run_src_pump_step s).producerDone = true)
    ∧ ((q2it_step s i).queue = s.queue
      ∧ (q2it_step s i).consumers.map (fun c => c.yielded)
          = s.consumers.map (fun c => c.yielded))
    ∧ ParallelStreamProc.abort_model (Option.none : Option (RelayState α)) = Option.none
    ∧ (∀ s0 : RelayState α, ParallelStreamProc.abort_model (Option.some s0)
        = Option.some { s0 with abort := true })
    ∧ (∀ os : Option (RelayState α),
        ParallelStreamProc.abort_model (ParallelStreamProc.abort_model os)
          = ParallelStreamProc.abort_model os) := by
  refine ⟨?_, ?_, rfl, fun s0 => rfl, ?_⟩
  · obtain ⟨pend, qu, qm, ab, pd, cs⟩ := s
    simp only at hab
    subst hab
    unfold run_src_pump_step
    cases pd with
    | true => exact ⟨rfl, rfl⟩
    | false => exact ⟨rfl, rfl⟩
  · obtain ⟨pend, qu, qm, ab, pd, cs⟩ := s
    simp only at hab
    subst hab
    unfold q2it_step
    cases hc : cs[i]? with
    | none => exact ⟨rfl, rfl⟩
    | some c =>
      simp only
      obtain ⟨cy, ce, cd⟩ := c
      cases cd with
      | true => exact ⟨rfl, rfl⟩
      | false =>
        simp only [Bool.false_eq_true, if_false, if_true]
        refine ⟨by trivial, ?_⟩
        show (cs.set i ⟨cy, ce, true⟩).map (fun c => c.yielded) = _
        rw [List.map_set]
        apply set_self_of_getElem?
        rw [List.getElem?_map, hc]
        rfl
  · intro os
    cases os with
    | none => rfl
    | some s0 => rfl

/-- Witness for C7 at a concrete aborted relay state. -/
theorem c7_abort_is_cooperative_and_idempotent_witness :
    (RelayState.abort ⟨[Option.some 1], [Option.some 2], 1, true, false,
        [⟨[], 0, false⟩]⟩ = true)
    ∧ ((run_src_pump_step (⟨[Option.some 1], [Option.some 2], 1, true, false,
        [⟨[], 0, false⟩]⟩ : RelayState Nat)).queue = [Option.some 2]
      ∧ (run_src_pump_step (⟨[Option.some 1], [Option.some 2], 1, true, false,
        [⟨[], 0, false⟩]⟩ : RelayState Nat)).producerDone = true) := by
  constructor
  · rfl
  · have h := c7_abort_is_cooperative_and_idempotent
      (⟨[Option.some 1], [Option.some 2], 1, true, false,
        [⟨[], 0, false⟩]⟩ : RelayState Nat) (by decide) 0
    exact h.1

/-- C8, counterexample: the claim says `split_it` rejects a partition
count of zero and a queue capacity below 1.  It rejects neither: at
`n = 0`, `qmaxsize = 0` the relay is constructed (zero consumers, zero
end-of-stream markers) and the very first producer step successfully
enqueues onto the "capacity 0" queue, because `queue.Queue(maxsize=0)` is
unbounded in Python — no rejection of either parameter ever happens. -/
theorem c8_counterexample :
    (split_it ([1] : List Nat) 0 0).consumers = []
    ∧ (runSchedule (split_it ([1] : List Nat) 0 0) [Action.produce]).queue
        = [Option.some 1] := by
  constructor
  · rfl
  · rfl

/-- C8, amended: `split_it` performs no validation at all: a partition
count of zero is accepted and yields a relay with zero consumers and zero
end-of-stream markers, and any queue capacity `qmax = 0` (Python
`maxsize <= 0`) is accepted and makes every `put` succeed (unbounded
queue).  The only related check in the module is `_run`'s rejection of a
resolved worker count below 1. -/
theorem c8_split_it_does_not_validate {α : Type} (src : List α) (qmax : Nat)
    (s : RelayState α) (h0 : s.qmax = 0) :
    (split_it src 0 qmax).consumers = []
    ∧ (split_it src 0 qmax).pending = src.map Option.some
    ∧ canPut s = true
    ∧ (ParallelStreamProc.run_model 4 false (Option.some 0) (Except.ok ())
        ([] : List (Except Unit Unit))).result
        = Except.error (PyError.valueError "max_workers can not be less than 1") := by
  refine ⟨rfl, ?_, ?_, rfl⟩
  · simp [split_it]
  · simp [canPut, h0]

/-- Witness for C8 (amended) at a concrete relay state with `qmax = 0`. -/
theorem c8_split_it_does_not_validate_witness :
    (RelayState.qmax (⟨[], [Option.some 7], 0, false, false, []⟩ : RelayState Nat) = 0)
    ∧ ((split_it ([5, 6] : List Nat) 0 3).consumers = []
      ∧ (split_it ([5, 6] : List Nat) 0 3).pending = ([5, 6] : List Nat).map Option.some
      ∧ canPut (⟨[], [Option.some 7], 0, false, false, []⟩ : RelayState Nat) = true
      ∧ (ParallelStreamProc.run_model 4 false (Option.some 0) (Except.ok ())
          ([] : List (Except Unit Unit))).result
          = Except.error (PyError.valueError "max_workers can not be less than 1")) :=
  ⟨rfl, c8_split_it_does_not_validate [5, 6] 3
    (⟨[], [Option.some 7], 0, false, false, []⟩ : RelayState Nat) rfl⟩

/-- C2, counterexample: the claim says a worker's raised exception is
re-raised by `_run` after all tasks settle.  It is not: `_run` only calls
`fut.wait` and asserts the done-count (line 115), never `Future.result()`,
so with one worker outcome an error the call still returns `None`. -/
theorem c2_counterexample :
    (ParallelStreamProc.run_model 2 false Option.none (Except.ok ())
        [Except.error "boom", Except.ok ()]).result = Except.ok ()
    ∧ ∀ e : PyError String,
        (ParallelStreamProc.run_model 2 false Option.none (Except.ok ())
          [Except.error "boom", Except.ok ()]).result ≠ Except.error e := by
  refine ⟨rfl, ?_⟩
  intro e h
  exact Except.noConfusion h

theorem consumerAccount_taskDones_le_gets (a : ConsumerAccount) :
    a.taskDones ≤ a.gets := by
  unfold ConsumerAccount.taskDones ConsumerAccount.gets
  cases hf : a.finished <;> cases hm : a.midItem <;> simp

theorem sum_gets_eq_sum_pulled_add_finished (l : List ConsumerAccount) :
    (l.map ConsumerAccount.gets).sum
      = (l.map ConsumerAccount.pulled).sum + l.countP (fun a => a.finished) := by
  induction l with
  | nil => rfl
  | cons a t ih =>
    simp only [List.map_cons, List.sum_cons, List.countP_cons, ih]
    unfold ConsumerAccount.gets
    cases hf : a.finished <;> simp <;> omega

theorem sum_taskDones_of_all_finished (l : List ConsumerAccount)
    (h : ∀ a ∈ l, a.finished = true) :
    (l.map ConsumerAccount.taskDones).sum
      = (l.map ConsumerAccount.pulled).sum + l.length := by
  induction l with
  | nil => rfl
  | cons a t ih =>
    have ha := h a (List.mem_cons_self a t)
    have ht := ih (fun a2 h2 => h a2 (List.mem_cons_of_mem _ h2))
    simp only [List.map_cons, List.sum_cons, List.length_cons, ht]
    unfold ConsumerAccount.taskDones
    rw [ha]
    simp
    omega

/-- C2, amended: a worker's raised exception is never re-raised by the
job call — `_run` never reads a future's result, so the job outcome is
entirely independent of the worker outcomes.  But the call returns `None`
only when the producer loop settles, and a worker that raises mid-stream
prevents that forever: `q.join()` (line 43) returns only when every `put`
(`M` items plus `n` end-of-stream markers) has a matching `task_done`,
while an abandoned `q2it` generator never consumes its `EOS_MARKER` and,
when abandoned between `yield` (line 21) and the following `task_done`
(line 22), also strands its in-flight item — so the accounting can never
close and `state.run(...)` on line 112 blocks forever: the job call
hangs, neither raising the failure nor returning, and the run state is
never cleared.  Only when every worker runs its partition's generator to
the end (raising, if at all, only after its partition and end marker are
drained) does the accounting close; the producer then settles and the
call returns `None` with the run state cleared, the worker's exception
silently discarded (see the counterexample). -/
theorem c2_run_never_raises_and_mid_stream_failure_hangs {ε : Type}
    (nthreads M n : Nat) (mw : Option Nat) (producer : Except ε Unit)
    (workers workers' : List (Except ε Unit)) (accounts : List ConsumerAccount) :
    ParallelStreamProc.run_model nthreads false mw producer workers
      = ParallelStreamProc.run_model nthreads false mw producer workers'
    ∧ ((∃ a ∈ accounts, a.finished = false) →
        (accounts.map ConsumerAccount.pulled).sum ≤ M →
        accounts.length = n →
        q_join_returns (M + n)
          ((accounts.map ConsumerAccount.taskDones).sum) = false)
    ∧ ((∀ a ∈ accounts, a.finished = true) →
        (accounts.map ConsumerAccount.pulled).sum = M →
        accounts.length = n →
        q_join_returns (M + n)
          ((accounts.map ConsumerAccount.taskDones).sum) = true) := by
  refine ⟨?_, ?_, ?_⟩
  · cases mw with
    | none =>
      simp only [ParallelStreamProc.run_model, ParallelStreamProc.run_dispatch]
    | some w =>
      simp only [ParallelStreamProc.run_model, ParallelStreamProc.run_dispatch]
  · rintro ⟨a0, ha0, hfin⟩ hM rfl
    have hle : (accounts.map ConsumerAccount.taskDones).sum
        ≤ (accounts.map ConsumerAccount.gets).sum :=
      List.sum_le_sum (fun a _ => consumerAccount_taskDones_le_gets a)
    have hsum := sum_gets_eq_sum_pulled_add_finished accounts
    have hcnt : accounts.countP (fun a => a.finished) < accounts.length := by
      have hne : accounts.countP (fun a => a.finished) ≠ accounts.length := by
        intro h
        have h2 := List.countP_eq_length.mp h a0 ha0
        simp only [hfin] at h2
        exact absurd h2 (by simp)
      exact Nat.lt_of_le_of_ne (List.countP_le_length _) hne
    have hlt : (accounts.map ConsumerAccount.taskDones).sum
        < M + accounts.length := by omega
    simp only [q_join_returns, beq_eq_false_iff_ne]
    omega
  · rintro hall hM rfl
    have hsum := sum_taskDones_of_all_finished accounts hall
    simp only [q_join_returns, hsum, hM, beq_self_eq_true]

/-- Witness for C2 (amended), in the spec's own scenario: two partitions
of a 10-item source; the failing partition's worker raised on its fifth
item (`pulled = 5`, abandoned mid-item), the other drained its five items
and its end marker.  Worker outcomes do not change the job outcome, the
accounting never closes (10 task_dones for 12 puts), and with both
partitions finished it does. -/
theorem c2_run_never_raises_and_mid_stream_failure_hangs_witness :
    (ParallelStreamProc.run_model 2 false Option.none (Except.ok ())
        ([Except.error "boom on item 5", Except.ok ()] : List (Except String Unit)))
      = ParallelStreamProc.run_model 2 false Option.none (Except.ok ())
        ([] : List (Except String Unit))
    ∧ q_join_returns (10 + 2)
        (([⟨5, false, true⟩, ⟨5, true, false⟩] : List ConsumerAccount).map
          ConsumerAccount.taskDones).sum = false
    ∧ q_join_returns (10 + 2)
        (([⟨5, true, false⟩, ⟨5, true, false⟩] : List ConsumerAccount).map
          ConsumerAccount.taskDones).sum = true :=
  ⟨(c2_run_never_raises_and_mid_stream_failure_hangs 2 10 2 Option.none
      (Except.ok ()) [Except.error "boom on item 5", Except.ok ()] []
      [⟨5, false, true⟩, ⟨5, true, false⟩]).1,
    (c2_run_never_raises_and_mid_stream_failure_hangs 2 10 2 Option.none
      (Except.ok ()) [Except.error "boom on item 5", Except.ok ()] []
      [⟨5, false, true⟩, ⟨5, true, false⟩]).2.1
      ⟨⟨5, false, true⟩, by decide, rfl⟩ (by decide) (by decide),
    (c2_run_never_raises_and_mid_stream_failure_hangs 2 10 2 Option.none
      (Except.ok ()) [Except.error "boom on item 5", Except.ok ()] []
      [⟨5, true, false⟩, ⟨5, true, false⟩]).2.2
      (by decide) (by decide) (by decide)⟩

/-- C4: invoking `_run` while a job is active on the same engine fails
with `ValueError("Can not run concurrent jobs")` with no worker task
dispatched, for any valid per-call worker count; and once the engine is
idle again (a completed job clears `self._state`), the same invocation
succeeds and leaves the engine idle. -/
theorem c4_concurrent_job_rejected_then_reusable {ε : Type} (nthreads : Nat)
    (mw : Option Nat) (producer : Except ε Unit) (workers : List (Except ε Unit))
    (hmw : mw = Option.none ∨ ∃ w, mw = Option.some w ∧ 1 ≤ w ∧ w ≤ nthreads) :
    ((ParallelStreamProc.run_model nthreads true mw producer workers).result
        = Except.error (PyError.valueError "Can not run concurrent jobs")
      ∧ (ParallelStreamProc.run_model nthreads true mw producer workers).dispatched = 0)
    ∧ ((ParallelStreamProc.run_model nthreads false mw (Except.ok ()) workers).result
        = Except.ok ()
      ∧ (ParallelStreamProc.run_model nthreads false mw (Except.ok ())
          workers).stateActiveAfter = false) := by
  rcases hmw with rfl | ⟨w, rfl, hw1, hw2⟩
  · exact ⟨⟨rfl, rfl⟩, rfl, rfl⟩
  · have h1 : ¬(w > nthreads) := by omega
    have h2 : ¬(w < 1) := by omega
    refine ⟨⟨?_, ?_⟩, ?_, ?_⟩ <;>
      simp [ParallelStreamProc.run_model, ParallelStreamProc.run_dispatch, h1, h2]

/-- Witness for C4: pool of 3, override of 2, a failing worker outcome. -/
theorem c4_concurrent_job_rejected_then_reusable_witness :
    (Option.some 2 = (Option.none : Option Nat)
        ∨ ∃ w, Option.some 2 = Option.some w ∧ 1 ≤ w ∧ w ≤ 3)
    ∧ (((ParallelStreamProc.run_model 3 true (Option.some 2) (Except.ok ())
          [Except.error "x", Except.ok ()]).result
        = Except.error (PyError.valueError "Can not run concurrent jobs")
      ∧ (ParallelStreamProc.run_model 3 true (Option.some 2) (Except.ok ())
          [Except.error "x", Except.ok ()]).dispatched = 0)
    ∧ ((ParallelStreamProc.run_model 3 false (Option.some 2) (Except.ok ())
          [Except.error "x", Except.ok ()]).result = Except.ok ()
      ∧ (ParallelStreamProc.run_model 3 false (Option.some 2) (Except.ok ())
          [Except.error "x", Except.ok ()]).stateActiveAfter = false)) :=
  ⟨Or.inr ⟨2, rfl, by decide, by decide⟩,
    c4_concurrent_job_rejected_then_reusable 3 (Option.some 2) (Except.ok ())
      [Except.error "x", Except.ok ()] (Or.inr ⟨2, rfl, by decide, by decide⟩)⟩

/-- C5, counterexample: the claim quantifies over every pool size `P`
and says requesting exactly `w = P` workers succeeds.  For the degenerate
`P = 0` pool (constructible: `ParallelStreamProc(0)`), requesting
`w = P = 0` is instead rejected by the `max_workers < 1` check. -/
theorem c5_counterexample :
    (ParallelStreamProc.run_model 0 false (Option.some 0) (Except.ok ())
        ([] : List (Except Unit Unit))).result
      = Except.error (PyError.valueError "max_workers can not be less than 1") := rfl

/-- C5, amended: for every pool of size `P ≥ 1`: requesting `w > P`
fails with the too-many-workers `ValueError`, requesting `w < 1` fails
with the less-than-1 `ValueError` — both synchronously, before any worker
task is dispatched, leaving the engine state untouched (clean and
reusable) — and requesting exactly `w = P` passes validation and succeeds
when the producer loop completes.  (For `P = 0`, `w = P` is instead
rejected by the `w < 1` check, see the counterexample.) -/
theorem c5_max_workers_validation {ε : Type} (P w : Nat) (hP : 1 ≤ P)
    (producer : Except ε Unit) (workers : List (Except ε Unit)) :
    (w > P →
      (ParallelStreamProc.run_model P false (Option.some w) producer workers).result
          = Except.error (PyError.valueError
              "Only have \x7b\x7d worker threads, but asked for \x7b\x7d")
        ∧ (ParallelStreamProc.run_model P false (Option.some w) producer
            workers).dispatched = 0
        ∧ (ParallelStreamProc.run_model P false (Option.some w) producer
            workers).stateActiveAfter = false)
    ∧ (w < 1 →
      (ParallelStreamProc.run_model P false (Option.some w) producer workers).result
          = Except.error (PyError.valueError "max_workers can not be less than 1")
        ∧ (ParallelStreamProc.run_model P false (Option.some w) producer
            workers).dispatched = 0
        ∧ (ParallelStreamProc.run_model P false (Option.some w) producer
            workers).stateActiveAfter = false)
    ∧ (w = P → producer = Except.ok () →
      (ParallelStreamProc.run_model P false (Option.some w) producer workers).result
          = Except.ok ()
        ∧ (ParallelStreamProc.run_model P false (Option.some w) producer
            workers).stateActiveAfter = false
        ∧ (ParallelStreamProc.run_model P false (Option.some w) producer
            workers).dispatched = P) := by
  refine ⟨?_, ?_, ?_⟩
  · intro hgt
    refine ⟨?_, ?_, ?_⟩ <;> simp [ParallelStreamProc.run_model, hgt]
  · intro hlt
    have hgt : ¬(w > P) := by omega
    refine ⟨?_, ?_, ?_⟩ <;> simp [ParallelStreamProc.run_model, hgt, hlt]
  · intro heq hp
    subst heq
    subst hp
    have hgt : ¬(w > w) := by omega
    have hlt : ¬(w < 1) := by omega
    refine ⟨?_, ?_, ?_⟩ <;>
      simp [ParallelStreamProc.run_model, ParallelStreamProc.run_dispatch, hgt, hlt]

/-- Witness for C5 (amended): pool of 2, exercising an oversized request,
a zero request, and an exact-size request. -/
theorem c5_max_workers_validation_witness :
    (1 ≤ 2)
    ∧ ((ParallelStreamProc.run_model 2 false (Option.some 3) (Except.ok ())
          ([] : List (Except Unit Unit))).result
        = Except.error (PyError.valueError
            "Only have \x7b\x7d worker threads, but asked for \x7b\x7d"))
    ∧ ((ParallelStreamProc.run_model 2 false (Option.some 0) (Except.ok ())
          ([] : List (Except Unit Unit))).result
        = Except.error (PyError.valueError "max_workers can not be less than 1"))
    ∧ ((ParallelStreamProc.run_model 2 false (Option.some 2) (Except.ok ())
          ([] : List (Except Unit Unit))).result = Except.ok ())
    ∧ ((ParallelStreamProc.run_model 2 false (Option.some 2) (Except.ok ())
          ([] : List (Except Unit Unit))).dispatched = 2) :=
  ⟨by decide,
    ((c5_max_workers_validation 2 3 (by decide) (Except.ok ()) []).1 (by decide)).1,
    ((c5_max_workers_validation 2 0 (by decide) (Except.ok ()) []).2.1 (by decide)).1,
    ((c5_max_workers_validation 2 2 (by decide) (Except.ok ()) []).2.2 rfl rfl).1,
    ((c5_max_workers_validation 2 2 (by decide) (Except.ok ()) []).2.2 rfl rfl).2.2⟩

/-- C6, counterexample: the claim says run state is cleared on every
exit path, including an exception raised by the source stream during the
producer loop.  There is no `try/finally` in `_run`: when `state.run`
raises, line 117 (`self._state = None`) is skipped and the run state
persists, so the engine then rejects all subsequent jobs. -/
theorem c6_counterexample :
    (ParallelStreamProc.run_model 2 false Option.none (Except.error "src boom")
        ([] : List (Except String Unit))).stateActiveAfter = true
    ∧ (ParallelStreamProc.run_model 2 false Option.none (Except.error "src boom")
        ([] : List (Except String Unit))).result
        = Except.error (PyError.raised "src boom")
    ∧ (ParallelStreamProc.run_model 2 true Option.none (Except.ok ())
        ([] : List (Except String Unit))).result
        = Except.error (PyError.valueError "Can not run concurrent jobs") :=
  ⟨rfl, rfl, rfl⟩

/-- C6, amended: the run state is created at job start and cleared
before returning when the producer loop finishes normally — which covers
both a successful drain and a cooperative abort, since an aborted
`run_src_pump` returns normally — but an exception propagating out of the
producer loop (e.g. the source stream raising) skips the clearing and
leaves the run state set permanently. -/
theorem c6_state_cleared_only_on_normal_return {ε : Type} (nthreads : Nat)
    (mw : Option Nat) (workers : List (Except ε Unit))
    (hmw : mw = Option.none ∨ ∃ w, mw = Option.some w ∧ 1 ≤ w ∧ w ≤ nthreads) :
    ((ParallelStreamProc.run_model nthreads false mw (Except.ok ())
        workers).stateActiveAfter = false)
    ∧ (∀ e : ε, (ParallelStreamProc.run_model nthreads false mw (Except.error e)
        workers).stateActiveAfter = true) := by
  rcases hmw with rfl | ⟨w, rfl, hw1, hw2⟩
  · exact ⟨rfl, fun e => rfl⟩
  · have h1 : ¬(w > nthreads) := by omega
    have h2 : ¬(w < 1) := by omega
    constructor
    · simp [ParallelStreamProc.run_model, ParallelStreamProc.run_dispatch, h1, h2]
    · intro e
      simp [ParallelStreamProc.run_model, ParallelStreamProc.run_dispatch, h1, h2]

/-- Witness for C6 (amended): pool of 2, default worker count. -/
theorem c6_state_cleared_only_on_normal_return_witness :
    ((Option.none : Option Nat) = Option.none
        ∨ ∃ w, (Option.none : Option Nat) = Option.some w ∧ 1 ≤ w ∧ w ≤ 2)
    ∧ ((ParallelStreamProc.run_model 2 false Option.none (Except.ok ())
        ([] : List (Except String Unit))).stateActiveAfter = false)
    ∧ ((ParallelStreamProc.run_model 2 false Option.none
        (Except.error "src boom") ([] : List (Except String Unit))).stateActiveAfter
        = true) :=
  ⟨Or.inl rfl,
    (c6_state_cleared_only_on_normal_return 2 Option.none [] (Or.inl rfl)).1,
    (c6_state_cleared_only_on_normal_return 2 Option.none [] (Or.inl rfl)).2 "src boom"⟩

theorem filterMap_getElem_perm {β : Type} (l : List β) (order : List Nat)
    (hord : order.Perm (List.range l.length)) :
    (order.filterMap (fun i => l[i]?)).Perm l := by
  have h1 := List.Perm.filterMap (fun i => l[i]?) hord
  rw [filterMap_getElem_range] at h1
  exact h1

theorem collectResults_ok {ε ρ : Type} (l : List (Except ε ρ))
    (h : ∀ o ∈ l, ∃ r, o = Except.ok r) :
    collectResults l = Except.ok (okValues l) := by
  induction l with
  | nil => rfl
  | cons o t ih =>
    obtain ⟨r, rfl⟩ := h o (List.mem_cons_self o t)
    have ht := ih (fun o ho => h o (List.mem_cons_of_mem _ ho))
    simp only [collectResults, ht, okValues, List.filterMap_cons]

theorem okValues_length {ε ρ : Type} (l : List (Except ε ρ))
    (h : ∀ o ∈ l, ∃ r, o = Except.ok r) :
    (okValues l).length = l.length := by
  induction l with
  | nil => rfl
  | cons o t ih =>
    obtain ⟨r, rfl⟩ := h o (List.mem_cons_self o t)
    have ht := ih (fun o ho => h o (List.mem_cons_of_mem _ ho))
    simp only [okValues, List.filterMap_cons, List.length_cons]
    simp only [okValues] at ht
    rw [ht]

theorem collectResults_error {ε ρ : Type} (l : List (Except ε ρ)) (e : ε)
    (he : Except.error e ∈ l) :
    ∃ e2, collectResults l = Except.error e2 ∧ Except.error e2 ∈ l := by
  induction l with
  | nil => exact absurd he (List.not_mem_nil _)
  | cons o t ih =>
    cases o with
    | error e1 => exact ⟨e1, rfl, List.mem_cons_self _ _⟩
    | ok r =>
      have het : Except.error e ∈ t := by
        rcases List.mem_cons.mp he with h1 | h1
        · exact absurd h1 (by simp)
        · exact h1
      obtain ⟨e2, h2, h3⟩ := ih het
      refine ⟨e2, ?_, List.mem_cons_of_mem _ h3⟩
      simp only [collectResults, h2]

/-- C3, counterexample: the claim says `broadcast` returns the results
ordered by worker-slot index.  `rr.done` is a Python `set`, and the
comprehension on line 144 iterates it in unspecified order; under the
legal iteration order `[1, 0]` of a two-slot pool whose slots return
`10` and `20`, `broadcast` returns `[20, 10]`, not the slot order
`[10, 20]`. -/
theorem c3_counterexample :
    ParallelStreamProc.broadcast_model
        ([Except.ok 10, Except.ok 20] : List (Except String Nat)) [1, 0]
      = Except.ok [20, 10]
    ∧ ([20, 10] : List Nat) ≠ [10, 20]
    ∧ ([1, 0] : List Nat).Perm (List.range 2) := by
  refine ⟨rfl, by decide, by decide⟩

/-- C3, amended: `broadcast(fn, *args)` on a pool of size `N` submits
exactly one invocation of `fn` to each of the `N` worker slots (the
futures list pairs slots with invocations one-to-one), waits for all of
them, and — when every invocation succeeds — returns a list of the `N`
results that is a permutation of the slot-ordered results, in the
unspecified iteration order of the `fut.wait(...).done` set rather than in
worker-slot order. -/
theorem c3_broadcast_once_per_slot_results_permuted {σ ε ρ : Type}
    (workers : List σ) (proc : σ → Except ε ρ) (order : List Nat)
    (hord : order.Perm (List.range workers.length))
    (hok : ∀ w ∈ workers, ∃ r, proc w = Except.ok r) :
    (ParallelStreamProc.broadcast_futures workers proc).length = workers.length
    ∧ ∃ rs, ParallelStreamProc.broadcast_model
          (ParallelStreamProc.broadcast_futures workers proc) order = Except.ok rs
        ∧ rs.Perm (okValues (ParallelStreamProc.broadcast_futures workers proc))
        ∧ rs.length = workers.length := by
  have hlen : (ParallelStreamProc.broadcast_futures workers proc).length
      = workers.length := List.length_map workers proc
  have hord2 : order.Perm
      (List.range (ParallelStreamProc.broadcast_futures workers proc).length) := by
    rw [hlen]
    exact hord
  have hperm := filterMap_getElem_perm
    (ParallelStreamProc.broadcast_futures workers proc) order hord2
  have hok2 : ∀ o ∈ ParallelStreamProc.broadcast_futures workers proc,
      ∃ r, o = Except.ok r := by
    intro o ho
    obtain ⟨w, hw, rfl⟩ := List.mem_map.mp ho
    exact hok w hw
  have hok3 : ∀ o ∈ order.filterMap
      (fun i => (ParallelStreamProc.broadcast_futures workers proc)[i]?),
      ∃ r, o = Except.ok r := fun o ho => hok2 o (hperm.mem_iff.mp ho)
  refine ⟨hlen, okValues (order.filterMap
      (fun i => (ParallelStreamProc.broadcast_futures workers proc)[i]?)), ?_, ?_, ?_⟩
  · exact collectResults_ok _ hok3
  · exact List.Perm.filterMap _ hperm
  · rw [okValues_length _ hok3, hperm.length_eq, hlen]

/-- Witness for C3 (amended): two slots, reversed set-iteration order. -/
theorem c3_broadcast_once_per_slot_results_permuted_witness :
    ([1, 0] : List Nat).Perm (List.range ([10, 20] : List Nat).length)
    ∧ (ParallelStreamProc.broadcast_futures ([10, 20] : List Nat)
        (fun w => (Except.ok (w + 1) : Except String Nat))).length
      = ([10, 20] : List Nat).length
    ∧ ∃ rs, ParallelStreamProc.broadcast_model
          (ParallelStreamProc.broadcast_futures ([10, 20] : List Nat)
            (fun w => (Except.ok (w + 1) : Except String Nat))) [1, 0] = Except.ok rs
        ∧ rs.Perm (okValues (ParallelStreamProc.broadcast_futures
            ([10, 20] : List Nat)
            (fun w => (Except.ok (w + 1) : Except String Nat))))
        ∧ rs.length = ([10, 20] : List Nat).length :=
  ⟨by decide,
    (c3_broadcast_once_per_slot_results_permuted [10, 20]
      (fun w => (Except.ok (w + 1) : Except String Nat)) [1, 0]
      (by decide) (fun w _ => ⟨w + 1, rfl⟩)).1,
    (c3_broadcast_once_per_slot_results_permuted [10, 20]
      (fun w => (Except.ok (w + 1) : Except String Nat)) [1, 0]
      (by decide) (fun w _ => ⟨w + 1, rfl⟩)).2⟩

/-- C9: `worker.submit(proc, *args, *kwargs)` on line 139 star-unpacks
the kwargs dict (not `**kwargs`): iterating a dict yields its keys, so
`proc` receives the keyword names as extra positional arguments after
`args`, the keyword values are dropped, and nothing at all is passed by
keyword. -/
theorem c9_broadcast_kwargs_unpacked_positionally {π κ : Type} (args : List π)
    (kwargs : List (String × κ)) (hk : kwargs ≠ []) :
    (broadcast_submit_call args kwargs).keyword = []
    ∧ (broadcast_submit_call args kwargs).positional
        = args.map Sum.inl ++ kwargs.map (fun kv => Sum.inr kv.fst) := by
  refine ⟨rfl, ?_⟩
  simp [broadcast_submit_call, pyDictIter]

/-- Witness for C9: two positional arguments and one keyword argument. -/
theorem c9_broadcast_kwargs_unpacked_positionally_witness :
    ([("blocksize", 512)] : List (String × Nat)) ≠ []
    ∧ ((broadcast_submit_call ([3, 4] : List Nat)
          ([("blocksize", 512)] : List (String × Nat))).keyword = []
      ∧ (broadcast_submit_call ([3, 4] : List Nat)
          ([("blocksize", 512)] : List (String × Nat))).positional
        = ([3, 4] : List Nat).map Sum.inl
          ++ ([("blocksize", 512)] : List (String × Nat)).map
              (fun kv => Sum.inr kv.fst)) :=
  ⟨by decide,
    c9_broadcast_kwargs_unpacked_positionally [3, 4] [("blocksize", 512)] (by decide)⟩

/-- C10: when some worker's broadcast invocation raised, `broadcast`
still has every future settled (`fut.wait` waits for all of them), and the
result-collection comprehension re-raises one of the raised exceptions —
whichever failed future the set iteration reaches first — instead of
returning a result list. -/
theorem c10_broadcast_raises_a_worker_failure {ε ρ : Type}
    (outcomes : List (Except ε ρ)) (order : List Nat)
    (hord : order.Perm (List.range outcomes.length))
    (e : ε) (he : Except.error e ∈ outcomes) :
    ∃ e2, ParallelStreamProc.broadcast_model outcomes order = Except.error e2
      ∧ Except.error e2 ∈ outcomes := by
  have hperm := filterMap_getElem_perm outcomes order hord
  have he2 : Except.error e ∈ order.filterMap (fun i => outcomes[i]?) :=
    hperm.mem_iff.mpr he
  obtain ⟨e2, h2, h3⟩ := collectResults_error _ e he2
  exact ⟨e2, h2, hperm.mem_iff.mp h3⟩

/-- Witness for C10: slot 0 succeeds, slot 1 raises. -/
theorem c10_broadcast_raises_a_worker_failure_witness :
    ([0, 1] : List Nat).Perm
        (List.range ([Except.ok 5, Except.error "worker fail"]
          : List (Except String Nat)).length)
    ∧ Except.error "worker fail"
        ∈ ([Except.ok 5, Except.error "worker fail"] : List (Except String Nat))
    ∧ ∃ e2, ParallelStreamProc.broadcast_model
          ([Except.ok 5, Except.error "worker fail"] : List (Except String Nat)) [0, 1]
        = Except.error e2
      ∧ Except.error e2
        ∈ ([Except.ok 5, Except.error "worker fail"] : List (Except String Nat)) :=
  ⟨by decide, by simp,
    c10_broadcast_raises_a_worker_failure [Except.ok 5, Except.error "worker fail"]
      [0, 1] (by decide) "worker fail" (by simp)⟩
